import Mathlib

/-!
Shallow embedding of the peer coordination and state-replication core of
`arrasio-pulgram-extended` (`src/arrasio/src/client/js/p2p-game.js`, class
`GameP2P`).  JavaScript values carried in game state and message payloads are
modelled by the inductive `JVal`; JS truthiness is made explicit; machine time
(`Date.now()`) is passed to each handler as an explicit `now : Nat` argument.
Handlers return the updated state together with the list of observable events
they emit (messages sent over the broadcast channel and callback invocations);
callback registration (`typeof cb === 'function'` checks in the source) is
modelled by boolean flags.  The JSON/string decoding layers of `handleMessage`
are outside the embedding: `handleMessage` here receives the already-decoded
message object, exactly the value the source calls `gameMessage`, together
with the envelope-level sender fields.
-/

namespace P2PGame

/-- JSON-like values: the dynamic JavaScript values stored in `gameState`
and carried in message payloads. -/
inductive JVal where
  | str : String → JVal
  | num : Nat → JVal
  | bool : Bool → JVal
  | null : JVal
  | obj : List (String × JVal) → JVal

/-- JavaScript truthiness of a `JVal`. -/
def truthy : JVal → Bool
  | .str s => s ≠ ""
  | .num n => n ≠ 0
  | .bool b => b
  | .null => false
  | .obj _ => true

/-- Truthiness of a possibly-absent (`undefined`) value. -/
def truthyOpt : Option JVal → Bool
  | some v => truthy v
  | none => false

/-- Truthiness of a possibly-absent number (0 is falsy in JS). -/
def truthyNum : Option Nat → Bool
  | some n => n ≠ 0
  | none => false

/-- Test for the literal string value used by the strict comparison
`this.gameState === 'connecting'`. -/
def isConnecting : JVal → Bool
  | .str s => s = "connecting"
  | _ => false

/-- Truthiness of a possibly-absent string ("" is falsy in JS). -/
def truthyStr : Option String → Bool
  | some s => s ≠ ""
  | none => false

/-- The decoded game message (the source's `gameMessage`): the named fields
that the `GameP2P` handlers read, each optional because JS objects may omit
them.  `raw` is the whole message as a JSON value, used by
`handleGameStateUpdate` when neither `state` nor `gameState` is present. -/
structure GameMessage where
  subType : Option String := none
  gameId : Option String := none
  timestamp : Option Nat := none
  candidateId : Option String := none
  electionId : Option Nat := none
  hostId : Option String := none
  state : Option JVal := none
  gameState : Option JVal := none
  fullState : Bool := false
  isDelta : Bool := false
  input : Option JVal := none
  playerId : Option String := none
  intendedRecipient : Option String := none
  raw : JVal := JVal.obj []

/-- Which event callbacks have been registered via `on` (the source checks
`typeof this.callbacks.x === 'function'` before each invocation). -/
structure Callbacks where
  onHostChanged : Bool := false
  onPlayerJoined : Bool := false
  onPlayerLeft : Bool := false
  onGameStateUpdated : Bool := false
  onPlayerInput : Bool := false
deriving DecidableEq, Repr

/-- The mutable fields of a `GameP2P` instance that the coordination protocol
reads and writes.  `onGameConnected` records whether the connection callback
has been assigned. -/
structure P2PState where
  isHost : Bool
  hostId : Option String
  players : List (String × Nat)
  gameState : JVal
  lastHostHeartbeat : Nat
  lastStateUpdate : Nat
  gameId : String
  peerId : String
  callbacks : Callbacks
  onGameConnected : Bool

/-- The state of a freshly constructed `GameP2P` (constructor plus the
session-id setup of `initialize`): not host, no known host, empty player map,
`gameState = 'connecting'`, both timestamps 0. -/
def initState (p g : String) : P2PState :=
  { isHost := false
    hostId := none
    players := []
    gameState := .str "connecting"
    lastHostHeartbeat := 0
    lastStateUpdate := 0
    gameId := g
    peerId := p
    callbacks := {}
    onGameConnected := false }

/-- Observable effects of a handler: messages handed to the transport
(`sendGroupMessage` / `sendDirectMessage`) and callback invocations. -/
inductive Event where
  | sentGroup : GameMessage → Event
  | sentDirect : GameMessage → String → Event
  | cbHostChanged : Option String → Bool → Event
  | cbPlayerJoined : String → Event
  | cbPlayerLeft : String → Event
  | cbGameStateUpdated : JVal → Bool → Event
  | cbPlayerInput : String → Option JVal → Event
  | cbGameConnected : Event

/-- Source `createGameMessage(subType, data)`: a message stamped with the
local session id and the current time; callers override the payload fields. -/
def createGameMessage (s : P2PState) (now : Nat) (sub : String) : GameMessage :=
  { subType := some sub
    gameId := some s.gameId
    timestamp := some now }

/-- Source `sendGroupMessage`: hand the content to the transport as a group
broadcast. -/
def sendGroupMessage (content : GameMessage) : List Event :=
  [Event.sentGroup content]

/-- Source `sendDirectMessage`: a group broadcast whose content carries the
`intendedRecipient` field (directed delivery is a logical filter only). -/
def sendDirectMessage (content : GameMessage) (userId : String) : List Event :=
  [Event.sentDirect { content with intendedRecipient := some userId } userId]

/-- Source `startHostElection` (the sending part; the 2-second settlement
timer that later runs `finalizeHostElection` is a separate handler here). -/
def startHostElection (now : Nat) (s : P2PState) : P2PState × List Event :=
  (s, sendGroupMessage
    { createGameMessage s now "HOST_ELECTION" with
        candidateId := some s.peerId
        electionId := some now })

/-- Source `becomeHost`: adopt the local id as host, announce a
`HOST_ASSIGNMENT` to the group, and fire the host-changed callback.
(The heartbeat interval started here emits on its own timer and is not an
immediate effect.) -/
def becomeHost (now : Nat) (s : P2PState) : P2PState × List Event :=
  let s1 := { s with hostId := some s.peerId, isHost := true }
  let msg := { createGameMessage s1 now "HOST_ASSIGNMENT" with hostId := some s.peerId }
  (s1,
    sendGroupMessage msg ++
      (if s.callbacks.onHostChanged then [Event.cbHostChanged (some s.peerId) true] else []))

/-- Source `handleHostElection`: the 10-second split-brain guard, then the
lexicographic candidate comparison (`message.candidateId > myId`, JS string
comparison; comparing `undefined` with a string is false). -/
def handleHostElection (m : GameMessage) (now : Nat) (s : P2PState) :
    P2PState × List Event :=
  if s.lastStateUpdate ≠ 0 ∧ now - s.lastStateUpdate < 10000 then
    ({ s with isHost := false }, [])
  else
    match m.candidateId with
    | some c =>
        if s.peerId < c then
          ({ s with hostId := some c, isHost := false }, [])
        else (s, [])
    | none => (s, [])

/-- Source `finalizeHostElection`: re-check the 10-second guard, then promote
self when no host is known (`!this.hostId`, so a null or empty id) or the
known host is the local id; otherwise remain follower. -/
def finalizeHostElection (now : Nat) (s : P2PState) : P2PState × List Event :=
  if s.lastStateUpdate ≠ 0 ∧ now - s.lastStateUpdate < 10000 then (s, [])
  else if ¬ truthyStr s.hostId then becomeHost now s
  else if s.hostId = some s.peerId then becomeHost now s
  else ({ s with isHost := false }, [])

/-- Source `handleHostHeartbeat`: accept only when the sender is the
currently believed host, then stamp `lastHostHeartbeat`. -/
def handleHostHeartbeat (m : GameMessage) (senderId : String) (now : Nat)
    (s : P2PState) : P2PState × List Event :=
  if s.hostId ≠ some senderId then (s, [])
  else ({ s with lastHostHeartbeat := now }, [])

/-- Source `handleHostAssignment`: unconditionally adopt the announced host
and recompute the local role, then fire the host-changed callback. -/
def handleHostAssignment (m : GameMessage) (s : P2PState) :
    P2PState × List Event :=
  let s1 := { s with hostId := m.hostId, isHost := m.hostId = some s.peerId }
  (s1, if s.callbacks.onHostChanged then [Event.cbHostChanged s1.hostId s1.isHost] else [])

/-- Source `checkHostStatus` (3-second liveness timer): a follower whose
believed host has been silent for more than 5 seconds clears `hostId` and
restarts the election. -/
def checkHostStatus (now : Nat) (s : P2PState) : P2PState × List Event :=
  if s.isHost then (s, [])
  else if truthyStr s.hostId ∧ now - s.lastHostHeartbeat > 5000 then
    startHostElection now { s with hostId := none }
  else (s, [])

/-- One assignment step of a JS object spread: set key `k` to `v`, keeping
the position of an existing key and appending a fresh one. -/
def setKey (l : List (String × JVal)) (k : String) (v : JVal) :
    List (String × JVal) :=
  if l.any (fun p => p.1 = k) then
    l.map (fun p => if p.1 = k then (k, v) else p)
  else l ++ [(k, v)]

/-- The enumerable own properties a value exposes to object spread: an
object's fields; a string's indexed characters; nothing for the rest. -/
def spreadFields : JVal → List (String × JVal)
  | .obj l => l
  | .str s => (List.range s.length).map
      (fun i => (toString i, JVal.str (String.mk [s.data.getD i ' '])))
  | _ => []

/-- JS object spread `\x7b...a, ...b\x7d` over the fields of `a` then `b`. -/
def spread2 (a b : List (String × JVal)) : List (String × JVal) :=
  b.foldl (fun acc p => setKey acc p.1 p.2) a

/-- Where `handleGameStateUpdate` finds the actual state data: `message.state`
if truthy, else `message.gameState` if truthy, else the message itself. -/
def stateToUse (m : GameMessage) : JVal :=
  if truthyOpt m.state then m.state.getD m.raw
  else if truthyOpt m.gameState then m.gameState.getD m.raw
  else m.raw

/-- Source `handleGameStateUpdate`: stamp `lastStateUpdate`; adopt the sender
as host when it differs from the believed host (implicit host discovery,
demoting the local peer unconditionally); apply the payload as a shallow
merge when `isDelta`, otherwise wholesale; promote a literal `'connecting'`
state to `'connected'` and fire the connected callback; finally fire the
state-updated callback. -/
def handleGameStateUpdate (m : GameMessage) (senderId : String) (now : Nat)
    (s : P2PState) : P2PState × List Event :=
  let stu := stateToUse m
  let s1 := { s with lastStateUpdate := now }
  let hostSwitch := s1.hostId ≠ some senderId
  let s2 := if hostSwitch then { s1 with hostId := some senderId, isHost := false } else s1
  let ev1 : List Event :=
    if hostSwitch ∧ s.callbacks.onHostChanged then
      [Event.cbHostChanged (some senderId) false]
    else []
  let g1 := if m.isDelta then
      JVal.obj (spread2 (spreadFields s2.gameState) (spreadFields stu))
    else stu
  let connectSwitch := isConnecting g1
  let g2 := if connectSwitch then JVal.str "connected" else g1
  let ev2 : List Event :=
    if connectSwitch ∧ s.onGameConnected then [Event.cbGameConnected] else []
  let ev3 : List Event :=
    if s.callbacks.onGameStateUpdated then [Event.cbGameStateUpdated g2 m.isDelta] else []
  ({ s2 with gameState := g2 }, ev1 ++ ev2 ++ ev3)

/-- Insert or refresh a peer record, as `Map.set` does. -/
def setPlayer (l : List (String × Nat)) (k : String) (v : Nat) :
    List (String × Nat) :=
  if l.any (fun p => p.1 = k) then
    l.map (fun p => if p.1 = k then (k, v) else p)
  else l ++ [(k, v)]

/-- Source `handlePlayerJoin`: record the peer; a host with a truthy game
state sends the newcomer a directed full snapshot; fire the joined
callback. -/
def handlePlayerJoin (m : GameMessage) (senderId : String) (now : Nat)
    (s : P2PState) : P2PState × List Event :=
  let s1 := { s with players := setPlayer s.players senderId now }
  let ev1 : List Event :=
    if s.isHost ∧ truthy s.gameState then
      sendDirectMessage
        { createGameMessage s now "GAME_STATE_UPDATE" with
            state := some s.gameState
            fullState := true }
        senderId
    else []
  let ev2 : List Event :=
    if s.callbacks.onPlayerJoined then [Event.cbPlayerJoined senderId] else []
  (s1, ev1 ++ ev2)

/-- Source `handlePlayerLeave`: drop the peer record and fire the left
callback. -/
def handlePlayerLeave (m : GameMessage) (senderId : String) (s : P2PState) :
    P2PState × List Event :=
  ({ s with players := s.players.filter (fun p => p.1 ≠ senderId) },
    if s.callbacks.onPlayerLeft then [Event.cbPlayerLeft senderId] else [])

/-- Source `handlePlayerInput`: only the host processes input, by invoking
the registered input callback; followers return immediately. -/
def handlePlayerInput (m : GameMessage) (senderId : String) (s : P2PState) :
    P2PState × List Event :=
  if ¬ s.isHost then (s, [])
  else (s, if s.callbacks.onPlayerInput then [Event.cbPlayerInput senderId m.input] else [])

/-- Source `updateGameState(state, delta)`: a non-host returns false doing
nothing; a host stores the state, broadcasts a `GAME_STATE_UPDATE` and
returns true.  The broadcast carries `delta ? state : this.gameState`, both
equal to `state` because the store happens first. -/
def updateGameState (st : JVal) (delta : Bool) (now : Nat) (s : P2PState) :
    P2PState × List Event × Bool :=
  if ¬ s.isHost then (s, [], false)
  else
    let s1 := { s with gameState := st }
    let msg := { createGameMessage s1 now "GAME_STATE_UPDATE" with
        state := some (if delta then st else s1.gameState)
        isDelta := delta }
    (s1, sendGroupMessage msg, true)

/-- The envelope-level fields of an inbound transport message that
`handleMessage` reads besides the decoded content: `senderId` and
`sender.id`. -/
structure ParsedMessage where
  content : GameMessage
  senderId : Option String := none
  senderDotId : Option String := none

/-- JS `a || d` on an optional string (empty strings are falsy). -/
def orDefault (o : Option String) (d : String) : String :=
  match o with
  | some x => if x ≠ "" then x else d
  | none => d

/-- Sender id used on the game-state-update fast path:
`parsedMessage.senderId || 'unknown'`. -/
def senderForState (pm : ParsedMessage) : String :=
  orDefault pm.senderId "unknown"

/-- Sender id used for dispatch:
`parsedMessage.senderId || (parsedMessage.sender ? parsedMessage.sender.id : 'unknown-user')`. -/
def senderForDispatch (pm : ParsedMessage) : String :=
  match pm.senderId with
  | some x => if x ≠ "" then x else orDefault pm.senderDotId "unknown-user"
  | none => orDefault pm.senderDotId "unknown-user"

/-- Source `handleMessage` after decoding: the game-state-update fast path
(by sub-type or by the `state && timestamp` shape) runs before everything
else; then messages without a sub-type are dropped; then foreign-session
messages (truthy `gameId` differing from the local session) are dropped;
finally the sub-type switch dispatches to the handlers.  Unknown sub-types
fall through the switch doing nothing. -/
def handleMessage (pm : ParsedMessage) (now : Nat) (s : P2PState) :
    P2PState × List Event :=
  let m := pm.content
  if m.subType = some "GAME_STATE_UPDATE" ∨ (truthyOpt m.state ∧ truthyNum m.timestamp) then
    handleGameStateUpdate m (senderForState pm) now s
  else if ¬ truthyStr m.subType then (s, [])
  else if truthyStr m.gameId ∧ m.gameId ≠ some s.gameId then (s, [])
  else
    let sid := senderForDispatch pm
    match m.subType with
    | some "HOST_ELECTION" => handleHostElection m now s
    | some "HOST_HEARTBEAT" => handleHostHeartbeat m sid now s
    | some "HOST_ASSIGNMENT" => handleHostAssignment m s
    | some "PLAYER_JOIN" => handlePlayerJoin m sid now s
    | some "PLAYER_LEAVE" => handlePlayerLeave m sid s
    | some "GAME_STATE_UPDATE" => handleGameStateUpdate m sid now s
    | some "PLAYER_INPUT" => handlePlayerInput m sid s
    | _ => (s, [])

/-- The content that `startHostElection` run by a peer with id `c` in session
`g` at time `t` hands to the transport, as delivered to every peer. -/
def electionMessageFrom (c g : String) (t : Nat) : GameMessage :=
  { subType := some "HOST_ELECTION"
    gameId := some g
    timestamp := some t
    candidateId := some c
    electionId := some t }

/-- Accumulator for the provisional host over a sequence of observed election
candidates: the last candidate strictly greater than the local id wins. -/
def lastWinner (p : String) (h : Option String) : List String → Option String
  | [] => h
  | c :: rest => lastWinner p (if p < c then some c else h) rest

/-- Process a list of election messages (one per candidate id, in delivery
order) with `handleHostElection`. -/
def electionFold (g : String) (t : Nat) (cands : List String) (s : P2PState) :
    P2PState :=
  cands.foldl (fun s2 c => (handleHostElection (electionMessageFrom c g t) t s2).1) s

/-- One invocation of a message or timer handler of `GameP2P`, with its
explicit inputs (message, transport-level sender, current time). -/
inductive HandlerCall where
  | election (m : GameMessage) (now : Nat)
  | finalizeElection (now : Nat)
  | become (now : Nat)
  | assignment (m : GameMessage)
  | stateUpdate (m : GameMessage) (senderId : String) (now : Nat)
  | heartbeat (m : GameMessage) (senderId : String) (now : Nat)
  | checkStatus (now : Nat)

/-- Apply one handler invocation to the local state. -/
def applyCall (s : P2PState) : HandlerCall → P2PState
  | .election m now => (handleHostElection m now s).1
  | .finalizeElection now => (finalizeHostElection now s).1
  | .become now => (becomeHost now s).1
  | .assignment m => (handleHostAssignment m s).1
  | .stateUpdate m sid now => (handleGameStateUpdate m sid now s).1
  | .heartbeat m sid now => (handleHostHeartbeat m sid now s).1
  | .checkStatus now => (checkHostStatus now s).1

/-- Run a sequence of handler invocations from a starting state. -/
def runCalls (s : P2PState) (cs : List HandlerCall) : P2PState :=
  cs.foldl applyCall s

/-- Concrete fixture: a peer `b` that currently is host of session `g`. -/
def hostB : P2PState :=
  { initState "b" "g" with isHost := true, hostId := some "b" }

/-- Concrete fixture: a host peer `A` with the input callback registered. -/
def hostAReg : P2PState :=
  { initState "A" "g" with
      isHost := true
      hostId := some "A"
      callbacks := { onPlayerInput := true } }

/-- Concrete fixture: a host peer `b` that saw a state snapshot at time
1000. -/
def guardHost : P2PState :=
  { initState "b" "g" with isHost := true, hostId := some "b", lastStateUpdate := 1000 }

/-- Concrete fixture: a host peer `a` with an object-valued game state. -/
def hostObj : P2PState :=
  { initState "a" "g" with
      isHost := true
      hostId := some "a"
      gameState := JVal.obj [("hp", JVal.num 1)] }

/-- Concrete fixture: a full game-state-update message for session `g`. -/
def fullStateMsg : GameMessage :=
  { subType := some "GAME_STATE_UPDATE"
    gameId := some "g"
    timestamp := some 7
    state := some (JVal.obj [("tick", JVal.num 1)]) }

/-- Concrete fixture: a `PLAYER_INPUT` envelope from sender `B` logically
directed at peer `H`, as `sendDirectMessage` builds it. -/
def inputForH : ParsedMessage :=
  { content :=
      { subType := some "PLAYER_INPUT"
        gameId := some "g"
        input := some (JVal.num 1)
        intendedRecipient := some "H" }
    senderId := some "B" }

/-- Concrete fixture: a `GAME_STATE_UPDATE` envelope of a foreign session
`other`. -/
def foreignStatePm : ParsedMessage :=
  { content :=
      { subType := some "GAME_STATE_UPDATE"
        gameId := some "other"
        timestamp := some 3
        state := some (JVal.obj [("k", JVal.num 1)]) }
    senderId := some "B" }

/-- Concrete fixture: a `HOST_ELECTION` envelope of a foreign session
`other`. -/
def foreignElectionPm : ParsedMessage :=
  { content :=
      { subType := some "HOST_ELECTION"
        gameId := some "other"
        candidateId := some "z" }
    senderId := some "B" }

/-- Concrete fixture: a delta `GAME_STATE_UPDATE` message for session `g`. -/
def deltaMsg : GameMessage :=
  { subType := some "GAME_STATE_UPDATE"
    gameId := some "g"
    timestamp := some 2
    isDelta := true
    state := some (JVal.obj [("a", JVal.num 5)]) }

/-- The one-directional role invariant: a peer that believes it is host
records its own id as the host id. -/
def hostInv (s : P2PState) : Prop := s.isHost = true → s.hostId = some s.peerId

/-- Concrete fixture: a handler sequence from the initial state — adopt `B`
as host from a state update, then accept a `HOST_ASSIGNMENT` naming the
local peer `me`, then process a `HOST_ELECTION` while the 10-second
split-brain guard is active. -/
def splitBrainCalls : List HandlerCall :=
  [ .stateUpdate fullStateMsg "B" 1000,
    .assignment { subType := some "HOST_ASSIGNMENT", gameId := some "g", hostId := some "me" },
    .election { subType := some "HOST_ELECTION", gameId := some "g", candidateId := some "zz" } 1500 ]

/-- First binding of a field name in an association list of object fields
(JS property lookup on the objects built here). -/
def lookupField (k : String) : List (String × JVal) → Option JVal
  | [] => none
  | (k2, v) :: rest => if k2 = k then some v else lookupField k rest

/-- Lookup after the in-place overwrite pass used by `setKey` when the key
is already present. -/
theorem lookupField_map_overwrite (l : List (String × JVal)) (k k2 : String)
    (v : JVal) :
    lookupField k2 (l.map (fun q => if q.1 = k then (k, v) else q))
      = if k2 = k then (if l.any (fun q => q.1 = k) then some v else none)
        else lookupField k2 l := by
  induction l with
  | nil => by_cases h : k2 = k <;> simp [lookupField, h]
  | cons p l ih =>
    obtain ⟨pk, pv⟩ := p
    simp only [List.map_cons]
    by_cases hp : pk = k
    · rw [if_pos hp]
      by_cases hk : k2 = k
      · subst hk
        simp [lookupField, List.any_cons, hp]
      · simp [lookupField, ih, hk, show k ≠ k2 from fun hc => hk hc.symm,
          List.any_cons, show pk ≠ k2 from fun hc => hk (hc.symm.trans hp)]
    · rw [if_neg hp]
      by_cases hk : k2 = k
      · subst hk
        simp [lookupField, ih, hp, List.any_cons]
        rw [decide_eq_false hp, Bool.false_or]
      · by_cases hpk2 : pk = k2
        · subst hpk2
          simp [lookupField, hk]
        · simp [lookupField, ih, hk, hpk2]

/-- Lookup after appending a single binding, as `setKey` does for a fresh
key. -/
theorem lookupField_append_single (l : List (String × JVal)) (k k2 : String)
    (v : JVal) :
    lookupField k2 (l ++ [(k, v)])
      = if (lookupField k2 l).isSome then lookupField k2 l
        else if k = k2 then some v else none := by
  induction l with
  | nil => simp [lookupField]
  | cons p l ih => by_cases hp : p.1 = k2 <;> simp [lookupField, hp, ih]

/-- A key that no entry carries looks up to nothing. -/
theorem lookupField_eq_none_of_any (l : List (String × JVal)) (k : String)
    (h : l.any (fun q => q.1 = k) = false) : lookupField k l = none := by
  induction l with
  | nil => rfl
  | cons p l ih =>
    simp only [List.any_cons, Bool.or_eq_false_iff, decide_eq_false_iff_not] at h
    simp [lookupField, h.1, ih h.2]

/-- Bridge from key non-membership to the boolean test `setKey` uses. -/
theorem any_key_eq_false_of_not_mem (l : List (String × JVal)) (k : String)
    (h : k ∉ l.map Prod.fst) : l.any (fun q => q.1 = k) = false := by
  rw [List.any_eq_false]
  intro q hq
  simp only [decide_eq_true_eq]
  exact fun hc => h (List.mem_map.mpr ⟨q, hq, hc⟩)

/-- Lookup after `setKey`: the set key is bound to the new value, all other
keys are untouched. -/
theorem lookupField_setKey (l : List (String × JVal)) (k k2 : String) (v : JVal) :
    lookupField k2 (setKey l k v)
      = if k2 = k then some v else lookupField k2 l := by
  unfold setKey
  by_cases hany : l.any (fun q => q.1 = k)
  · rw [if_pos hany, lookupField_map_overwrite]
    by_cases hk : k2 = k <;> simp [hk, hany]
  · rw [if_neg hany, lookupField_append_single]
    have hnone : lookupField k l = none :=
      lookupField_eq_none_of_any l k (Bool.eq_false_iff.mpr hany)
    by_cases hk : k2 = k
    · subst hk
      rw [hnone]
      simp
    · rw [if_neg hk, if_neg (fun hc : k = k2 => hk hc.symm)]
      cases h : lookupField k2 l <;> simp

/-- Lookup over a JS object spread with duplicate-free update keys: the
update's binding wins where present, the base binding survives elsewhere. -/
theorem lookupField_spread2 (d : List (String × JVal)) (g : List (String × JVal))
    (k : String) (hnd : (d.map Prod.fst).Nodup) :
    lookupField k (spread2 g d)
      = if (lookupField k d).isSome then lookupField k d else lookupField k g := by
  induction d generalizing g with
  | nil => simp [spread2, lookupField]
  | cons p d ih =>
    obtain ⟨k0, v0⟩ := p
    simp only [List.map_cons, List.nodup_cons] at hnd
    have hs : spread2 g ((k0, v0) :: d) = spread2 (setKey g k0 v0) d := rfl
    rw [hs, ih (setKey g k0 v0) hnd.2]
    by_cases hk : k0 = k
    · subst hk
      have hdnone : lookupField k0 d = none :=
        lookupField_eq_none_of_any d k0 (any_key_eq_false_of_not_mem d k0 hnd.1)
      simp [lookupField, hdnone, lookupField_setKey]
    · have hcons : lookupField k ((k0, v0) :: d) = lookupField k d := by
        simp [lookupField, hk]
      rw [hcons, lookupField_setKey, if_neg (fun hc : k = k0 => hk hc.symm)]

/-- C9: `handleHostHeartbeat` stamps `lastHostHeartbeat` with the current
time exactly when the sender is the believed host, and changes nothing
else; a heartbeat from any other sender leaves the whole state unchanged
and emits nothing. -/
theorem handleHostHeartbeat_stamps_iff_believed_host (m : GameMessage)
    (senderId : String) (now : Nat) (s : P2PState) :
    handleHostHeartbeat m senderId now s
      = (if s.hostId = some senderId then { s with lastHostHeartbeat := now } else s, []) := by
  unfold handleHostHeartbeat
  by_cases h : s.hostId = some senderId <;> simp [h]

/-- C10: when the input callback is registered, `handlePlayerInput` invokes
it exactly when the local peer is host; a non-host returns with no state
change and no callback invocation (the state is unchanged in all cases). -/
theorem handlePlayerInput_host_only (m : GameMessage) (senderId : String)
    (s : P2PState) (hreg : s.callbacks.onPlayerInput = true) :
    (handlePlayerInput m senderId s).1 = s ∧
    ((handlePlayerInput m senderId s).2 = [Event.cbPlayerInput senderId m.input]
      ↔ s.isHost = true) ∧
    (s.isHost = false → (handlePlayerInput m senderId s).2 = []) := by
  unfold handlePlayerInput
  by_cases h : s.isHost <;> simp [h, hreg]

/-- Witness for C10 at a concrete host with the callback registered. -/
theorem handlePlayerInput_host_only_witness :
    (handlePlayerInput { input := some (JVal.num 7) } "B" hostAReg).1 = hostAReg ∧
    ((handlePlayerInput { input := some (JVal.num 7) } "B" hostAReg).2
        = [Event.cbPlayerInput "B" (GameMessage.input { input := some (JVal.num 7) })]
      ↔ hostAReg.isHost = true) ∧
    (hostAReg.isHost = false →
      (handlePlayerInput { input := some (JVal.num 7) } "B" hostAReg).2 = []) :=
  handlePlayerInput_host_only { input := some (JVal.num 7) } "B" hostAReg rfl

/-- C6 counterexample: with a snapshot observed 1 second ago, processing a
`HOST_ELECTION` message does change the coordinator state of a current
host: `isHost` flips from true to false. -/
theorem handleHostElection_guard_changes_isHost :
    guardHost.lastStateUpdate ≠ 0 ∧
    2000 - guardHost.lastStateUpdate < 10000 ∧
    guardHost.isHost = true ∧
    (handleHostElection { candidateId := some "a" } 2000 guardHost).1.isHost = false :=
  ⟨by decide, by decide, rfl, rfl⟩

/-- C6 amended: under the 10-second split-brain guard (a nonzero
`lastStateUpdate` less than 10000 ms old), `handleHostElection` skips the
candidate comparison and leaves everything unchanged except forcing
`isHost := false`, and emits nothing. -/
theorem handleHostElection_guard (m : GameMessage) (now : Nat) (s : P2PState)
    (h0 : s.lastStateUpdate ≠ 0) (h1 : now - s.lastStateUpdate < 10000) :
    handleHostElection m now s = ({ s with isHost := false }, []) := by
  unfold handleHostElection
  rw [if_pos ⟨h0, h1⟩]

/-- Witness for C6 at the concrete guarded host. -/
theorem handleHostElection_guard_witness :
    handleHostElection { candidateId := some "zz" } 2000 guardHost
      = ({ guardHost with isHost := false }, []) :=
  handleHostElection_guard { candidateId := some "zz" } 2000 guardHost
    (by decide) (by decide)

/-- C7 counterexample: a host publishing a delta snapshot also overwrites
its canonical `gameState` with the delta, where the claim says the store
happens only for full snapshots. -/
theorem updateGameState_delta_stores :
    hostObj.gameState = JVal.obj [("hp", JVal.num 1)] ∧
    (updateGameState (JVal.obj [("x", JVal.num 2)]) true 5 hostObj).1.gameState
      = JVal.obj [("x", JVal.num 2)] :=
  ⟨rfl, rfl⟩

/-- C7 amended: `updateGameState` is a no-op returning false for a non-host;
for a host it stores the snapshot as the new canonical state for both full
and delta publishes, broadcasts it in a `GAME_STATE_UPDATE` envelope, and
returns true. -/
theorem updateGameState_spec (st : JVal) (delta : Bool) (now : Nat) (s : P2PState) :
    (s.isHost = false → updateGameState st delta now s = (s, [], false)) ∧
    (s.isHost = true →
      updateGameState st delta now s
        = ({ s with gameState := st },
            [Event.sentGroup
              { createGameMessage s now "GAME_STATE_UPDATE" with
                  state := some st
                  isDelta := delta }],
            true)) := by
  unfold updateGameState
  by_cases h : s.isHost
  · refine ⟨fun hc => by simp [hc] at h, fun _ => ?_⟩
    simp only [h, not_true_eq_false, if_neg]
    cases delta <;> simp [sendGroupMessage, createGameMessage]
  · simp [h]

/-- Witness for C7 at a concrete follower and a concrete host. -/
theorem updateGameState_spec_witness :
    updateGameState (JVal.num 3) false 9 (initState "f" "g")
      = (initState "f" "g", [], false) ∧
    updateGameState (JVal.obj [("x", JVal.num 2)]) true 5 hostObj
      = ({ hostObj with gameState := JVal.obj [("x", JVal.num 2)] },
          [Event.sentGroup
            { createGameMessage hostObj 5 "GAME_STATE_UPDATE" with
                state := some (JVal.obj [("x", JVal.num 2)])
                isDelta := true }],
          true) :=
  ⟨(updateGameState_spec (JVal.num 3) false 9 (initState "f" "g")).1 rfl,
    (updateGameState_spec (JVal.obj [("x", JVal.num 2)]) true 5 hostObj).2 rfl⟩

/-- C1: evaluating `handleGameStateUpdate` at a host `b` receiving a full
state update from the lexicographically smaller sender `a`: the code adopts
`a` as host and steps down unconditionally, although `b` wins the id
comparison; the claimed comparison-based resolution is absent. -/
theorem handleGameStateUpdate_host_steps_down_to_smaller :
    ("a" : String) < "b" ∧
    hostB.isHost = true ∧ hostB.peerId = "b" ∧
    (handleGameStateUpdate fullStateMsg "a" 7 hostB).1.isHost = false ∧
    (handleGameStateUpdate fullStateMsg "a" 7 hostB).1.hostId = some "a" :=
  ⟨by rw [String.lt_iff_toList_lt]; decide, rfl, rfl, rfl, rfl⟩

/-- C2: evaluating `handleMessage` at peer `A` on an envelope whose
`intendedRecipient` is `H`: although `A` is not the target, the envelope is
fully processed (the input callback fires) — `handleMessage` never reads
`intendedRecipient`, so the receive-side filter the spec requires does not
exist. -/
theorem handleMessage_ignores_intendedRecipient :
    inputForH.content.intendedRecipient = some "H" ∧
    hostAReg.peerId = "A" ∧
    handleMessage inputForH 50 hostAReg
      = (hostAReg, [Event.cbPlayerInput "B" (some (JVal.num 1))]) :=
  ⟨rfl, rfl, rfl⟩

/-- C4 counterexample: a `GAME_STATE_UPDATE` envelope carrying the foreign
session id `other` is processed anyway at a peer in session `mine` (its
`lastStateUpdate` and `hostId` change), because the state-update fast path
of `handleMessage` runs before the session filter. -/
theorem handleMessage_foreign_state_update_processed :
    foreignStatePm.content.gameId = some "other" ∧
    (initState "A" "mine").gameId = "mine" ∧
    (initState "A" "mine").lastStateUpdate = 0 ∧
    (handleMessage foreignStatePm 60 (initState "A" "mine")).1.lastStateUpdate = 60 ∧
    (handleMessage foreignStatePm 60 (initState "A" "mine")).1.hostId = some "B" :=
  ⟨rfl, rfl, rfl, rfl, rfl⟩

/-- C4 amended: for every envelope that does not take the state-update fast
path (sub-type `GAME_STATE_UPDATE` or a truthy `state` plus `timestamp`
shape), a truthy session id differing from the local one makes
`handleMessage` drop the envelope silently: no handler runs, the state is
unchanged and nothing is emitted. -/
theorem handleMessage_foreign_session_dropped (pm : ParsedMessage) (now : Nat)
    (s : P2PState) (g : String)
    (hfast : ¬ (pm.content.subType = some "GAME_STATE_UPDATE"
      ∨ (truthyOpt pm.content.state ∧ truthyNum pm.content.timestamp)))
    (hg : pm.content.gameId = some g) (hne : g ≠ "") (hdiff : g ≠ s.gameId) :
    handleMessage pm now s = (s, []) := by
  unfold handleMessage
  rw [if_neg hfast]
  by_cases hsub : truthyStr pm.content.subType
  · rw [if_neg (fun hc => hc hsub), if_pos]
    refine ⟨?_, ?_⟩
    · rw [hg]; simp [truthyStr, hne]
    · rw [hg]; exact fun hc => hdiff (Option.some.inj hc)
  · rw [if_pos hsub]

/-- Witness for C4 at a concrete foreign-session election envelope. -/
theorem handleMessage_foreign_session_dropped_witness :
    handleMessage foreignElectionPm 5 (initState "A" "mine")
      = (initState "A" "mine", []) :=
  handleMessage_foreign_session_dropped foreignElectionPm 5 (initState "A" "mine")
    "other" (by decide) rfl (by decide) (by decide)

/-- C8: applying the same full `GAME_STATE_UPDATE` twice yields the same
local game state as applying it once; and a delta update applies the
payload as a shallow merge — each of the payload's top-level fields
overwrites the field of the same name wholesale, every other field of the
local object state keeps its binding. -/
theorem handleGameStateUpdate_idem_and_delta (m : GameMessage) (senderId : String)
    (now1 now2 : Nat) (s : P2PState) (d g0 : List (String × JVal)) (k : String) :
    (m.isDelta = false →
      (handleGameStateUpdate m senderId now2
          ((handleGameStateUpdate m senderId now1 s).1)).1.gameState
        = (handleGameStateUpdate m senderId now1 s).1.gameState) ∧
    (m.isDelta = true → m.state = some (JVal.obj d) → s.gameState = JVal.obj g0 →
      (d.map Prod.fst).Nodup →
      (handleGameStateUpdate m senderId now1 s).1.gameState = JVal.obj (spread2 g0 d) ∧
      lookupField k (spread2 g0 d)
        = if (lookupField k d).isSome then lookupField k d
          else lookupField k g0) := by
  constructor
  · intro hd
    simp [handleGameStateUpdate, hd]
  · intro hd hst hgs hnd
    refine ⟨?_, lookupField_spread2 d g0 k hnd⟩
    simp [handleGameStateUpdate, hd, stateToUse, hst, truthyOpt, truthy,
      spreadFields, isConnecting, apply_ite P2PState.gameState, hgs]

/-- Witness for C8: the idempotence part at a concrete full update, the
merge part at a concrete delta over a concrete object state. -/
theorem handleGameStateUpdate_idem_and_delta_witness :
    ((handleGameStateUpdate fullStateMsg "h" 2
        ((handleGameStateUpdate fullStateMsg "h" 1 (initState "w" "g")).1)).1.gameState
      = (handleGameStateUpdate fullStateMsg "h" 1 (initState "w" "g")).1.gameState) ∧
    ((handleGameStateUpdate deltaMsg "h" 3 hostObj).1.gameState
        = JVal.obj (spread2 [("hp", JVal.num 1)] [("a", JVal.num 5)]) ∧
      lookupField "a" (spread2 [("hp", JVal.num 1)] [("a", JVal.num 5)])
        = if (lookupField "a" [("a", JVal.num 5)]).isSome
          then lookupField "a" [("a", JVal.num 5)]
          else lookupField "a" [("hp", JVal.num 1)]) :=
  ⟨(handleGameStateUpdate_idem_and_delta fullStateMsg "h" 1 2
      (initState "w" "g") [] [] "a").1 rfl,
    (handleGameStateUpdate_idem_and_delta deltaMsg "h" 3 0 hostObj
      [("a", JVal.num 5)] [("hp", JVal.num 1)] "a").2 rfl rfl rfl (by simp)⟩

/-- With no snapshot ever observed, `handleHostElection` reduces to the
candidate comparison. -/
theorem handleHostElection_noGuard (c g : String) (t : Nat) (s : P2PState)
    (h : s.lastStateUpdate = 0) :
    (handleHostElection (electionMessageFrom c g t) t s).1
      = if s.peerId < c then { s with hostId := some c, isHost := false } else s := by
  simp only [handleHostElection, electionMessageFrom, h, ne_eq, not_true_eq_false,
    false_and, if_false]
  by_cases hc : s.peerId < c <;> simp [hc]

/-- Folding the election messages over a fresh state only rewrites the
provisional host, tracked by `lastWinner`. -/
theorem electionFold_shape (g : String) (t : Nat) (cands : List String)
    (p gg : String) (h : Option String) :
    electionFold g t cands { initState p gg with hostId := h }
      = { initState p gg with hostId := lastWinner p h cands } := by
  induction cands generalizing h with
  | nil => simp [electionFold, lastWinner]
  | cons c rest ih =>
    rw [show electionFold g t (c :: rest) { initState p gg with hostId := h }
        = electionFold g t rest
            ((handleHostElection (electionMessageFrom c g t) t
              { initState p gg with hostId := h }).1) from rfl]
    rw [handleHostElection_noGuard c g t _ rfl]
    by_cases hc : p < c
    · rw [if_pos (show ({ initState p gg with hostId := h } : P2PState).peerId < c from hc)]
      rw [show lastWinner p h (c :: rest) = lastWinner p (some c) rest from by
        simp [lastWinner, hc]]
      exact ih (some c)
    · rw [if_neg (show ¬ ({ initState p gg with hostId := h } : P2PState).peerId < c from hc)]
      rw [show lastWinner p h (c :: rest) = lastWinner p h rest from by
        simp [lastWinner, hc]]
      exact ih h

/-- The provisional host is absent exactly when no candidate beat the local
id (starting from no known host). -/
theorem lastWinner_eq_none_iff (p : String) (cands : List String) (h : Option String) :
    lastWinner p h cands = none ↔ h = none ∧ ∀ c ∈ cands, ¬ p < c := by
  induction cands generalizing h with
  | nil => simp [lastWinner]
  | cons c rest ih =>
    simp only [lastWinner]
    rw [ih]
    by_cases hc : p < c
    · rw [if_pos hc]
      constructor
      · intro hx
        exact absurd hx.1 (Option.some_ne_none c)
      · intro hx
        exact (hx.2 c (List.mem_cons_self c rest) hc).elim
    · rw [if_neg hc]
      constructor
      · rintro ⟨h1, h2⟩
        refine ⟨h1, fun x hx => ?_⟩
        rcases List.mem_cons.mp hx with rfl | hx2
        · exact hc
        · exact h2 x hx2
      · rintro ⟨h1, h2⟩
        exact ⟨h1, fun x hx => h2 x (List.mem_cons_of_mem c hx)⟩

/-- Every recorded provisional host beat the local id. -/
theorem lastWinner_lt (p : String) (cands : List String) (h : Option String)
    (hh : ∀ y, h = some y → p < y) :
    ∀ x, lastWinner p h cands = some x → p < x := by
  induction cands generalizing h with
  | nil => exact hh
  | cons c rest ih =>
    intro x hx
    simp only [lastWinner] at hx
    refine ih _ ?_ x hx
    intro y hy
    by_cases hc : p < c
    · rw [if_pos hc] at hy
      cases hy
      exact hc
    · rw [if_neg hc] at hy
      exact hh y hy

/-- A recorded provisional host is one of the candidates (or was there
beforehand). -/
theorem lastWinner_mem (p : String) (cands : List String) (h : Option String) :
    ∀ x, lastWinner p h cands = some x → x ∈ cands ∨ h = some x := by
  induction cands generalizing h with
  | nil => exact fun x hx => Or.inr hx
  | cons c rest ih =>
    intro x hx
    simp only [lastWinner] at hx
    rcases ih _ x hx with hmem | hacc
    · exact Or.inl (List.mem_cons_of_mem c hmem)
    · by_cases hc : p < c
      · rw [if_pos hc] at hacc
        cases hacc
        exact Or.inl (List.mem_cons_self c rest)
      · rw [if_neg hc] at hacc
        exact Or.inr hacc

/-- C5: starting with no known host, a peer that processes the full set of
`HOST_ELECTION` messages (its own included, in any delivery order) and then
finalizes promotes itself exactly when its id is the lexicographically
greatest candidate; with distinct ids this is exactly one peer, whatever
the order. -/
theorem election_winner_is_greatest (g p : String) (cands : List String)
    (hmem : p ∈ cands) (hnd : cands.Nodup) (tnow tfin : Nat) :
    ((finalizeHostElection tfin (electionFold g tnow cands (initState p g))).1.isHost
        = true)
      ↔ ∀ c ∈ cands, c ≤ p := by
  have hshape : electionFold g tnow cands (initState p g)
      = { initState p g with hostId := lastWinner p none cands } :=
    electionFold_shape g tnow cands p g none
  rw [hshape]
  cases hw : lastWinner p none cands with
  | none =>
    have hfin : (finalizeHostElection tfin
        ({ initState p g with hostId := none })).1.isHost = true := by
      simp [finalizeHostElection, becomeHost, truthyStr, initState]
    rw [hfin]
    have hall := (lastWinner_eq_none_iff p cands none).mp hw
    constructor
    · intro _
      exact fun c hc => le_of_not_lt (hall.2 c hc)
    · intro _
      rfl
  | some x =>
    have hpx : p < x := lastWinner_lt p cands none (by simp) x hw
    have hxne : x ≠ "" := by
      intro hx
      subst hx
      rw [String.lt_iff_toList_lt] at hpx
      exact List.Lex.not_nil_right _ _ hpx
    have hxnep : some x ≠ some p := by
      intro hc
      cases hc
      exact lt_irrefl p hpx
    have hxmem : x ∈ cands := by
      rcases lastWinner_mem p cands none x hw with hmem2 | habs
      · exact hmem2
      · cases habs
    have hfin : (finalizeHostElection tfin
        ({ initState p g with hostId := some x })).1.isHost = false := by
      simp [finalizeHostElection, truthyStr, initState, hxne, hxnep]
    rw [hfin]
    constructor
    · intro hc
      exact Bool.noConfusion hc
    · intro hall
      exact absurd (hall x hxmem) (not_le.mpr hpx)

/-- Witness for C5: among candidates `peer-3`, `peer-9`, the peer `peer-9`
promotes itself (and the same theorem shows `peer-3` would not). -/
theorem election_winner_is_greatest_witness :
    ((finalizeHostElection 5
        (electionFold "g" 1 ["peer-3", "peer-9"] (initState "peer-9" "g"))).1.isHost
      = true)
      ↔ ∀ c ∈ ["peer-3", "peer-9"], c ≤ ("peer-9" : String) :=
  election_winner_is_greatest "g" "peer-9" ["peer-3", "peer-9"]
    (by simp) (by decide) 1 5

/-- Handler invocations never change the local peer id. -/
theorem applyCall_peerId (s : P2PState) (c : HandlerCall) :
    (applyCall s c).peerId = s.peerId := by
  cases c with
  | election m now =>
    simp only [applyCall, handleHostElection]
    split
    · rfl
    · cases m.candidateId with
      | none => rfl
      | some cand => dsimp only
                     split <;> rfl
  | finalizeElection now =>
    simp only [applyCall, finalizeHostElection, becomeHost]
    split
    · rfl
    · split
      · rfl
      · split <;> rfl
  | become now => rfl
  | assignment m => rfl
  | stateUpdate m sid now =>
    simp only [applyCall, handleGameStateUpdate]
    split <;> rfl
  | heartbeat m sid now =>
    simp only [applyCall, handleHostHeartbeat]
    split <;> rfl
  | checkStatus now =>
    simp only [applyCall, checkHostStatus, startHostElection]
    split
    · rfl
    · split <;> rfl

/-- Every handler invocation preserves the one-directional role invariant. -/
theorem applyCall_hostInv (s : P2PState) (c : HandlerCall) (h : hostInv s) :
    hostInv (applyCall s c) := by
  cases c with
  | election m now =>
    simp only [applyCall, handleHostElection]
    split
    · intro hh
      exact absurd hh (by simp)
    · cases m.candidateId with
      | none => exact h
      | some cand =>
        dsimp only
        split
        · intro hh
          exact absurd hh (by simp)
        · exact h
  | finalizeElection now =>
    simp only [applyCall, finalizeHostElection, becomeHost]
    split
    · exact h
    · split
      · intro _
        rfl
      · split
        · intro _
          rfl
        · intro hh
          exact absurd hh (by simp)
  | become now =>
    intro _
    rfl
  | assignment m =>
    intro hh
    simpa using of_decide_eq_true hh
  | stateUpdate m sid now =>
    simp only [applyCall, handleGameStateUpdate]
    split
    · intro hh
      exact absurd hh (by simp)
    · exact h
  | heartbeat m sid now =>
    simp only [applyCall, handleHostHeartbeat]
    split
    · exact h
    · exact h
  | checkStatus now =>
    simp only [applyCall, checkHostStatus, startHostElection]
    split
    · exact h
    · rename_i hnot
      split
      · intro hh
        exact absurd hh hnot
      · exact h

/-- C3 counterexample: a reachable handler sequence from the initial state
after which `hostId` names the local peer yet `isHost` is false — adopting
`B` from a state update, accepting an assignment naming the local peer,
then hitting the split-brain guard of `handleHostElection`, which clears
`isHost` but not `hostId`; so the two-directional invariant fails. -/
theorem runCalls_invariant_fails :
    (runCalls (initState "me" "g") splitBrainCalls).hostId = some "me" ∧
    (runCalls (initState "me" "g") splitBrainCalls).isHost = false ∧
    (initState "me" "g").peerId = "me" :=
  ⟨rfl, rfl, rfl⟩

/-- C3 amended: from the initial state, after any sequence of message and
timer handler invocations, the invariant holds in one direction: whenever
`isHost` is true, `hostId` is the local peer id (the converse can fail, see
the counterexample). -/
theorem runCalls_host_implies_self (p g : String) (cs : List HandlerCall)
    (h : (runCalls (initState p g) cs).isHost = true) :
    (runCalls (initState p g) cs).hostId = some p := by
  have hpeer : ∀ (l : List HandlerCall) (s : P2PState), (runCalls s l).peerId = s.peerId := by
    intro l
    induction l with
    | nil => intro s; rfl
    | cons c rest ih =>
      intro s
      exact (ih (applyCall s c)).trans (applyCall_peerId s c)
  have hkey : ∀ (l : List HandlerCall) (s : P2PState), hostInv s → hostInv (runCalls s l) := by
    intro l
    induction l with
    | nil => intro s hs; exact hs
    | cons c rest ih =>
      intro s hs
      exact ih (applyCall s c) (applyCall_hostInv s c hs)
  have hinit : hostInv (initState p g) := by
    intro hh
    exact absurd hh (by simp [initState])
  have hres := hkey cs (initState p g) hinit h
  rw [hres, hpeer cs (initState p g)]
  rfl

/-- Witness for C3 at the one-step sequence that makes the peer host. -/
theorem runCalls_host_implies_self_witness :
    (runCalls (initState "me" "g") [HandlerCall.become 1]).hostId = some "me" :=
  runCalls_host_implies_self "me" "g" [HandlerCall.become 1] rfl

end P2PGame
